import Mathlib

/-!
# blogimport: the export-to-file conversion pipeline

A shallow embedding of `main.go` (Blogger export to Hugo content files):
the slug deriver `makePath` / `unicodeSanitize`, the `Draft` decoder, the
`Tags.TomlString` helper, the front-matter template `templ`, the existence check
`fileExist`, `writeEntry`, the directory check and the driver loop of `main`.

Go strings are modelled as Lean strings of Unicode code points (valid UTF-8).
The Go standard library is not part of the repository: its Unicode tables and
`filepath.Join` are taken as parameters (`Stdlib`), with the ASCII behaviour of the
character functions written out.
-/

namespace Blogimport

/-! ## Standard library parameters -/

/-- The parts of the Go standard library that the program consults and that are
tables or platform functions: the character classes and case mapping of package
`unicode` for runes outside ASCII, the printable table of `strconv`, and
`filepath.Join`. -/
structure Stdlib where
  /-- Field `IsLetter` is `unicode.IsLetter` on runes outside ASCII. -/
  IsLetter : Char → Bool
  /-- Field `IsDigit` is `unicode.IsDigit` on runes outside ASCII. -/
  IsDigit : Char → Bool
  /-- Field `IsSpace` is `unicode.IsSpace` on runes outside ASCII. -/
  IsSpace : Char → Bool
  /-- Field `ToLower` is `unicode.ToLower` on runes outside ASCII. -/
  ToLower : Char → Char
  /-- Field `IsPrint` is `strconv.IsPrint` on runes outside ASCII. -/
  IsPrint : Char → Bool
  /-- Field `filepathJoin` is `filepath.Join` of a directory and a file name. -/
  filepathJoin : String → String → String

/-- A standard library whose tables hold nothing outside ASCII and whose `filepath.Join`
puts one separator between directory and file name; it agrees with Go on ASCII
text and on clean, non-empty directory paths. -/
def asciiStdlib : Stdlib where
  IsLetter := fun _ => false
  IsDigit := fun _ => false
  IsSpace := fun _ => false
  ToLower := fun r => r
  IsPrint := fun _ => false
  filepathJoin := fun dir name => dir ++ "/" ++ name

/-- Go `unicode.IsLetter`. -/
def unicodeIsLetter (L : Stdlib) (r : Char) : Bool :=
  if r.toNat < 0x80 then
    (('A'.toNat ≤ r.toNat && r.toNat ≤ 'Z'.toNat) || ('a'.toNat ≤ r.toNat && r.toNat ≤ 'z'.toNat))
  else L.IsLetter r

/-- Go `unicode.IsDigit`. -/
def unicodeIsDigit (L : Stdlib) (r : Char) : Bool :=
  if r.toNat < 0x80 then ('0'.toNat ≤ r.toNat && r.toNat ≤ '9'.toNat)
  else L.IsDigit r

/-- Go `unicode.IsSpace`: in ASCII the white space characters are
`'\t'`, `'\n'`, `'\v'`, `'\f'`, `'\r'` and `' '`. -/
def unicodeIsSpace (L : Stdlib) (r : Char) : Bool :=
  if r.toNat < 0x80 then
    (r.toNat == 0x09 || r.toNat == 0x0A || r.toNat == 0x0B || r.toNat == 0x0C
      || r.toNat == 0x0D || r.toNat == 0x20)
  else L.IsSpace r

/-- Go `unicode.ToLower`. -/
def unicodeToLower (L : Stdlib) (r : Char) : Char :=
  if r.toNat < 0x80 then
    (if 'A'.toNat ≤ r.toNat && r.toNat ≤ 'Z'.toNat then Char.ofNat (r.toNat + 32) else r)
  else L.ToLower r

/-! ## Package `strings` -/

/-- Go `strings.TrimLeftFunc` on the runes of a string. -/
def TrimLeftFunc (f : Char → Bool) : List Char → List Char
  | [] => []
  | r :: rs => if f r then TrimLeftFunc f rs else r :: rs

/-- Go `strings.TrimRightFunc` on the runes of a string. -/
def TrimRightFunc (f : Char → Bool) (s : List Char) : List Char :=
  (TrimLeftFunc f s.reverse).reverse

/-- Go `strings.TrimSpace`: leading and trailing white space, as defined by Unicode,
removed. -/
def TrimSpace (L : Stdlib) (s : List Char) : List Char :=
  TrimRightFunc (unicodeIsSpace L) (TrimLeftFunc (unicodeIsSpace L) s)

/-- Go `strings.Replace(s, old, new, -1)` for one-rune `old` and `new`: every
occurrence of `old` is replaced. -/
def Replace (s : List Char) (old new : Char) : List Char :=
  match s with
  | [] => []
  | r :: rs => (if r = old then new else r) :: Replace rs old new

/-- Go `strings.ToLower`: every rune mapped to its lower case. -/
def ToLower (L : Stdlib) : List Char → List Char
  | [] => []
  | r :: rs => unicodeToLower L r :: ToLower L rs

/-! ## The slug deriver -/

/-- The loop of `unicodeSanitize`: `target` is appended with every rune of `source`
that is a letter, a digit, `'.'`, `'_'` or `'-'`. -/
def unicodeSanitizeLoop (L : Stdlib) : List Char → List Char → List Char
  | [], target => target
  | r :: source, target =>
    if unicodeIsLetter L r || unicodeIsDigit L r || r = '.' || r = '_' || r = '-' then
      unicodeSanitizeLoop L source (target ++ [r])
    else
      unicodeSanitizeLoop L source target

/-- Go `unicodeSanitize`. -/
def unicodeSanitize (L : Stdlib) (s : List Char) : List Char :=
  unicodeSanitizeLoop L s []

/-- Go `makePath`:
`unicodeSanitize(strings.ToLower(strings.Replace(strings.TrimSpace(s), " ", "-", -1)))`. -/
def makePath (L : Stdlib) (s : String) : String :=
  String.mk (unicodeSanitize L (ToLower L (Replace (TrimSpace L s.data) ' ' '-')))

/-! ## Package `strconv` and `fmt` -/

/-- Go `strconv.IsPrint`: in ASCII the printable runes are `0x20` to `0x7E`. -/
def strconvIsPrint (L : Stdlib) (r : Char) : Bool :=
  if r.toNat < 0x80 then (0x20 ≤ r.toNat && r.toNat ≤ 0x7E)
  else L.IsPrint r

/-- The table `lowerhex` of `strconv`, at index `n % 16`. -/
def lowerhex (n : Nat) : Char :=
  "0123456789abcdef".data.getD (n % 16) '0'

/-- The hexadecimal digits of `n` from shift `4 * (k - 1)` down to shift `0`. -/
def hexDigits (n : Nat) : Nat → List Char
  | 0 => []
  | k + 1 => lowerhex (n / 16 ^ k) :: hexDigits n k

/-- Go `strconv.appendEscapedRune` with quote `'"'`, as used by `strconv.Quote`:
the text appended for one rune. -/
def appendEscapedRune (L : Stdlib) (r : Char) : List Char :=
  if r = '"' ∨ r = '\\' then ['\\', r]
  else if strconvIsPrint L r then [r]
  else if r.toNat = 0x07 then ['\\', 'a']
  else if r.toNat = 0x08 then ['\\', 'b']
  else if r.toNat = 0x0C then ['\\', 'f']
  else if r.toNat = 0x0A then ['\\', 'n']
  else if r.toNat = 0x0D then ['\\', 'r']
  else if r.toNat = 0x09 then ['\\', 't']
  else if r.toNat = 0x0B then ['\\', 'v']
  else if r.toNat < 0x20 ∨ r.toNat = 0x7F then '\\' :: 'x' :: hexDigits r.toNat 2
  else if r.toNat < 0x10000 then '\\' :: 'u' :: hexDigits r.toNat 4
  else '\\' :: 'U' :: hexDigits r.toNat 8

/-- The runes of a string, each escaped by `appendEscapedRune`. -/
def escapeRunes (L : Stdlib) : List Char → List Char
  | [] => []
  | r :: rs => appendEscapedRune L r ++ escapeRunes L rs

/-- Go `fmt.Sprintf("%q", s)`, which is `strconv.Quote(s)`: a double-quoted Go string
literal. -/
def SprintfQ (L : Stdlib) (s : String) : String :=
  String.mk ('"' :: (escapeRunes L s.data ++ ['"']))

/-- Go `strings.Join`. -/
def stringsJoin (elems : List String) (sep : String) : String :=
  match elems with
  | [] => ""
  | [a] => a
  | a :: rest => rest.foldl (fun b s => b ++ sep ++ s) a

/-! ## Data model -/

/-- Go `type Date time.Time`, as the civil date and clock reading of the time in its
own location (the reading that `Format` prints). -/
structure Date where
  Year : Int
  Month : Nat
  Day : Nat
  Hour : Nat
  Minute : Nat
  Second : Nat
deriving DecidableEq, Repr

/-- Go `time.appendInt`: the decimal form of `x`, zero-padded to `width` digits,
after a minus sign when `x` is negative. -/
def appendInt (x : Int) (width : Nat) : String :=
  let digits := Nat.toDigits 10 x.natAbs
  String.mk ((if x < 0 then ['-'] else []) ++
    (List.replicate (width - digits.length) '0' ++ digits))

/-- Go `Date.String`: `time.Time(d).Format("2006-01-02T15:04:05Z")`, where the
final `Z` is literal text of the layout. -/
def Date.String (d : Date) : String :=
  appendInt d.Year 4 ++ "-" ++ appendInt d.Month 2 ++ "-" ++ appendInt d.Day 2 ++ "T" ++
    appendInt d.Hour 2 ++ ":" ++ appendInt d.Minute 2 ++ ":" ++ appendInt d.Second 2 ++ "Z"

/-- Go `type Author struct`. -/
structure Author where
  Name : String
  Uri : String
deriving DecidableEq, Repr

/-- Go `type Tag struct`. -/
structure Tag where
  Name : String
  Scheme : String
deriving DecidableEq, Repr

/-- Go `type Tags []Tag`. -/
abbrev Tags := List Tag

/-- Go `type Entry struct`; `Draft` is the boolean of `type Draft bool`. -/
structure Entry where
  ID : String
  Published : Date
  Updated : Date
  Draft : Bool
  Title : String
  Content : String
  Tags : Tags
  Author : Author
  Extra : String
deriving DecidableEq, Repr

/-- Go `Draft.UnmarshalXML` after `dec.DecodeElement(&v, &start)` has put the text of
the element in `v`: the new value of the receiver `*d` and the returned error. -/
def Draft.UnmarshalXML (d : Bool) (v : String) : Bool × Option String :=
  if v = "yes" then (true, none)
  else if v = "no" then (false, none)
  else (d, some ("Unknown value for draft boolean: " ++ v))

/-- The loop of `Tags.TomlString`: the quoted name of every tag with the label
scheme is appended to `names`. -/
def TomlStringLoop (L : Stdlib) : List Tag → List String → List String
  | [], names => names
  | t :: ts, names =>
    if t.Scheme = "http://www.blogger.com/atom/ns#" then
      TomlStringLoop L ts (names ++ [SprintfQ L t.Name])
    else
      TomlStringLoop L ts names

/-- Go `Tags.TomlString`. -/
def Tags.TomlString (L : Stdlib) (t : Tags) : String :=
  stringsJoin (TomlStringLoop L t []) ", "

/-- Execution of the template `templ` on an entry (`t.Execute(f, e)`): the text
written. `with` runs its body when the pipeline value is a non-empty string, `if`
when the boolean is true, and package `text/template` prints values unescaped. -/
def render (L : Stdlib) (e : Entry) : String :=
  "+++\ntitle = '" ++ e.Title ++ "'\ndate = '" ++ e.Published.String ++
  "'\nupdated = '" ++ e.Updated.String ++ "'" ++
  (if Tags.TomlString L e.Tags ≠ "" then "\ntags = [" ++ Tags.TomlString L e.Tags ++ "]" else "") ++
  (if e.Draft then "\ndraft = true" else "") ++
  "\n+++\n\n" ++ e.Content ++ "\n"

/-! ## The driver -/

/-- The instruction text `prompt` of `main`. -/
def prompt : String :=
  "You are an expert in Markdown and HTML. You are well-versed in Hugo for creating GitHub Pages.\n" ++
  "\n" ++
  "I have some files that are not 100% compatible with the syntax of Markdown files for Hugo. They need to be fixed following these guidelines:\n" ++
  "\n" ++
  "- I would like to remove the HTML but preserve the formatting that the HTML has, making it compatible with Markdown.\n" ++
  "- I would like to change the script embeds, such as the following example line:\n" ++
  "\n" ++
  "      <script src=\"https://gist.github.com/vicendominguez/333333.js\"></script>\n" ++
  "\n" ++
  "  and replace it with:\n" ++
  "\n" ++
  "      [Gist](https://gist.github.com/vicendominguez/333333.js)\n" ++
  "\n" ++
  "- I would like to achieve good English writing. A bit informal but professional enough for a blog post.\n" ++
  "- I would like it to be compatible with a Hugo template.\n" ++
  "- If the title is not descriptive of the content, I would like to replace it with a short but more appropriate one.\n" ++
  "- If the text does not have enough information for a title, do not change anything.\n" ++
  "- Your response should only and exclusively be the raw code of the file so that it can be copied and pasted.\n" ++
  "- Only in English. Nothing else.\n" ++
  "\n" ++
  "The code is as follows:\n"

/-- The output directory as a map from path to file contents, kept as an
association list in order of creation. -/
abbrev FS := List (String × String)

/-- The file at `path` is present: `os.Stat(path)` does not fail with
`os.ErrNotExist`. -/
def fsHas (fs : FS) (path : String) : Bool :=
  fs.any (fun f => f.1 == path)

/-- The effect of `os.OpenFile(path, os.O_CREATE|os.O_TRUNC|os.O_WRONLY, 0644)` followed
by writing `contents`: an existing file is truncated and rewritten, an absent one is
created. -/
def fsWrite (fs : FS) (path contents : String) : FS :=
  if fsHas fs path then fs.map (fun f => if f.1 == path then (path, contents) else f)
  else fs ++ [(path, contents)]

/-- Go `fileExist`. -/
def fileExist (L : Stdlib) (e : Entry) (dir : String) (fs : FS) : Bool :=
  let filename := L.filepathJoin dir (makePath L e.Title ++ ".md")
  if fsHas fs filename then true else false

/-- Go `writeEntry`: the template is executed into the file at
`filepath.Join(dir, makePath(e.Title)+".md")`. On the map model of the file system
opening and writing do not fail. -/
def writeEntry (L : Stdlib) (e : Entry) (dir : String) (fs : FS) : Except String FS :=
  let filename := L.filepathJoin dir (makePath L e.Title ++ ".md")
  .ok (fsWrite fs filename (render L e))

/-- The inner loop of `main` that sets `isPost`: it stops at the first tag that has
the post kind as name and the kind scheme as scheme. -/
def isPost : List Tag → Bool
  | [] => false
  | tag :: tags =>
    if tag.Name = "http://schemas.google.com/blogger/2008/kind#post" ∧
        tag.Scheme = "http://schemas.google.com/g/2005#kind" then true
    else isPost tags

/-- The state of a run of the driver loop: the files of the output directory, the
counters `count` and `drafts`, and a record of what the loop did: the prompts passed
to `AskGroq`, the entries passed to `writeEntry`, and the entries found already on
disk. -/
structure State where
  fs : FS
  count : Nat
  drafts : Nat
  asked : List String
  wrote : List Entry
  skipped : List Entry
deriving DecidableEq, Repr

/-- The state at the start of the loop on an output directory `fs`. -/
def State.start (fs : FS) : State :=
  { fs := fs, count := 0, drafts := 0, asked := [], wrote := [], skipped := [] }

/-- The result of running loop iterations: the loop went on to state `st`, or
`log.Fatalf` ended the process with message `msg` in state `st`. -/
inductive Outcome where
  | ok (st : State)
  | fatal (msg : String) (st : State)
deriving DecidableEq, Repr

/-- The statement `if extra != nil { entry.Extra = *extra }` of the loop: the value of
the flag `-extra` is stored on the loop's copy of the entry. -/
def setExtra (extra : Option String) (entry : Entry) : Entry :=
  match extra with
  | some x => { entry with Extra := x }
  | none => entry

/-- One iteration of the loop `for _, entry := range exp.Entries` of `main`, with
the rewrite service `AskGroq` as a parameter. (`time.Sleep` has no effect on the
state.) -/
def loopBody (L : Stdlib) (AskGroq : String → Except String String)
    (extra : Option String) (dir : String) (st : State) (entry : Entry) : Outcome :=
  if ¬ isPost entry.Tags then .ok st
  else
    let entry := setExtra extra entry
    if fileExist L entry dir st.fs then
      .ok { st with count := st.count + 1, skipped := st.skipped ++ [entry] }
    else
      let userPrompt := prompt ++ "\n" ++ entry.Content
      let st := { st with asked := st.asked ++ [userPrompt] }
      match AskGroq userPrompt with
      | .error err => .fatal ("Failed Asking Groq: " ++ err) st
      | .ok content =>
        let entry := { entry with Content := content }
        match writeEntry L entry dir st.fs with
        | .error err =>
          .fatal ("Failed writing post " ++ SprintfQ L entry.Title ++ " to disk:\n" ++ err) st
        | .ok fs =>
          let st := { st with fs := fs, wrote := st.wrote ++ [entry] }
          if entry.Draft then .ok { st with drafts := st.drafts + 1 }
          else .ok { st with count := st.count + 1 }

/-- The loop of `main` over the entries of the export, from state `st`. -/
def mainLoop (L : Stdlib) (AskGroq : String → Except String String)
    (extra : Option String) (dir : String) : List Entry → State → Outcome
  | [], st => .ok st
  | entry :: entries, st =>
    match loopBody L AskGroq extra dir st entry with
    | .ok st1 => mainLoop L AskGroq extra dir entries st1
    | .fatal msg st1 => .fatal msg st1

/-! ## The output directory check -/

/-- The `os.FileInfo` of a path, as far as `main` reads it. -/
structure FileInfo where
  IsDir : Bool
deriving DecidableEq, Repr

/-- An error of package `os`: `os.ErrNotExist`, or another error with its text. -/
inductive OsError where
  | ErrNotExist
  | other (msg : String)
deriving DecidableEq, Repr

/-- The text of an error. -/
def OsError.Error : OsError → String
  | .ErrNotExist => "file does not exist"
  | .other msg => msg

/-- How the directory check of `main` ends: the run goes on to read the export,
`log.Fatal` ends it, or `info.IsDir()` is called on a nil `os.FileInfo` and the
process panics. -/
inductive DirOutcome where
  | proceed
  | fatal (msg : String)
  | nilDereference
deriving DecidableEq, Repr

/-- The directory check of `main`. `stat` is the result of `os.Stat(dir)`, either a
file info or an error with a nil file info; `mkdirAll` is the error that
`os.MkdirAll(dir, 0755)` returns when it is called. -/
def dirCheck (stat : Except OsError FileInfo) (mkdirAll : Option OsError) : DirOutcome :=
  let info : Option FileInfo := match stat with
    | .ok i => some i
    | .error _ => none
  let err : Option OsError := match stat with
    | .ok _ => none
    | .error e => some e
  let err := if err = some OsError.ErrNotExist then mkdirAll else err
  match err with
  | some e => .fatal e.Error
  | none =>
    match info with
    | none => .nilDereference
    | some i => if ¬ i.IsDir then .fatal "Second argument is not a directory." else .proceed

/-! ## The end-to-end scenario -/

/-- The entry of the end-to-end scenario: title `Hello World`, published at
2020-01-02T03:04:05.000+00:00, the post-kind tag and the label `go`, content
`<b>hi</b>`, not a draft. -/
def helloWorld (id : String) (updated : Date) (author : Author) : Entry :=
  { ID := id
    Published := ⟨2020, 1, 2, 3, 4, 5⟩
    Updated := updated
    Draft := false
    Title := "Hello World"
    Content := "<b>hi</b>"
    Tags := [⟨"http://schemas.google.com/blogger/2008/kind#post",
              "http://schemas.google.com/g/2005#kind"⟩,
             ⟨"go", "http://www.blogger.com/atom/ns#"⟩]
    Author := author
    Extra := "" }

/-- The lines of a text: the pieces between line feeds; `cur` holds the runes of
the line being read. -/
def splitLines : List Char → List Char → List String
  | [], cur => [String.mk cur]
  | r :: rs, cur => if r = '\n' then String.mk cur :: splitLines rs [] else splitLines rs (cur ++ [r])

/-- The lines of a document. -/
def lines (doc : String) : List String :=
  splitLines doc.data []

/-! ## The slug pipeline in the words of the specification -/

/-- Every maximal run of white space is replaced with exactly one hyphen; `inRun`
says that the rune before was white space. -/
def hyphenateRuns (isSp : Char → Bool) : Bool → List Char → List Char
  | _, [] => []
  | inRun, r :: rs =>
    if isSp r then
      (if inRun then hyphenateRuns isSp true rs else '-' :: hyphenateRuns isSp true rs)
    else r :: hyphenateRuns isSp false rs

/-- The reference pipeline of the slug contract: trim surrounding white space, replace
each maximal run of interior white space with exactly one hyphen, lowercase all
letters, then delete every character that is not a letter, a digit, `'.'`, `'_'` or
`'-'`. -/
def makePathSpec (L : Stdlib) (s : String) : String :=
  String.mk (List.filter
    (fun r => unicodeIsLetter L r || unicodeIsDigit L r || r = '.' || r = '_' || r = '-')
    (List.map (unicodeToLower L)
      (hyphenateRuns (unicodeIsSpace L) false
        (List.rdropWhile (unicodeIsSpace L) (List.dropWhile (unicodeIsSpace L) s.data)))))

/-! ## The counter invariant -/

/-- The counters of a state agree with its record: `count` is the number of entries
written as published plus the number of entries found on disk, `drafts` the number
of entries written as drafts. -/
def Counted (st : State) : Prop :=
  st.count = (st.wrote.filter (fun e => !e.Draft)).length + st.skipped.length ∧
  st.drafts = (st.wrote.filter (fun e => e.Draft)).length

/-! ## Lemmas on the string functions -/

theorem TrimLeftFunc_eq_dropWhile (f : Char → Bool) (s : List Char) :
    TrimLeftFunc f s = s.dropWhile f := by
  induction s with
  | nil => rfl
  | cons r rs ih =>
    by_cases h : f r = true
    · simp [TrimLeftFunc, List.dropWhile, h, ih]
    · simp [TrimLeftFunc, List.dropWhile, h]

theorem TrimRightFunc_eq_rdropWhile (f : Char → Bool) (s : List Char) :
    TrimRightFunc f s = s.rdropWhile f := by
  simp [TrimRightFunc, List.rdropWhile, TrimLeftFunc_eq_dropWhile]

theorem Replace_eq_map (s : List Char) (old new : Char) :
    Replace s old new = s.map (fun r => if r = old then new else r) := by
  induction s with
  | nil => rfl
  | cons r rs ih => simp [Replace, ih]

theorem ToLower_eq_map (L : Stdlib) (s : List Char) :
    ToLower L s = s.map (unicodeToLower L) := by
  induction s with
  | nil => rfl
  | cons r rs ih => simp [ToLower, ih]

theorem unicodeSanitizeLoop_eq (L : Stdlib) (source target : List Char) :
    unicodeSanitizeLoop L source target = target ++ source.filter
      (fun r => unicodeIsLetter L r || unicodeIsDigit L r || r = '.' || r = '_' || r = '-') := by
  induction source generalizing target with
  | nil => simp [unicodeSanitizeLoop]
  | cons r rs ih =>
    by_cases h : (unicodeIsLetter L r || unicodeIsDigit L r || decide (r = '.') ||
        decide (r = '_') || decide (r = '-')) = true
    · rw [unicodeSanitizeLoop, if_pos h, ih]
      simp [List.filter_cons, h]
    · rw [unicodeSanitizeLoop, if_neg h, ih]
      simp [List.filter_cons, h]

theorem isPost_iff (tags : List Tag) :
    isPost tags = true ↔ ∃ t ∈ tags,
      t.Name = "http://schemas.google.com/blogger/2008/kind#post" ∧
      t.Scheme = "http://schemas.google.com/g/2005#kind" := by
  induction tags with
  | nil => simp [isPost]
  | cons t ts ih =>
    by_cases h : t.Name = "http://schemas.google.com/blogger/2008/kind#post" ∧
        t.Scheme = "http://schemas.google.com/g/2005#kind"
    · simp [isPost, h]
    · rw [isPost, if_neg h, ih]
      constructor
      · rintro ⟨u, hu, hn⟩
        exact ⟨u, List.mem_cons_of_mem _ hu, hn⟩
      · rintro ⟨u, hu, hn⟩
        rcases List.mem_cons.mp hu with rfl | hu
        · exact absurd hn h
        · exact ⟨u, hu, hn⟩

theorem intercalate_go_eq_foldl (acc sep : String) (l : List String) :
    String.intercalate.go acc sep l = l.foldl (fun b x => b ++ sep ++ x) acc := by
  induction l generalizing acc with
  | nil => rfl
  | cons a as ih => simp [String.intercalate.go, ih]

theorem stringsJoin_eq_intercalate (elems : List String) (sep : String) :
    stringsJoin elems sep = sep.intercalate elems := by
  match elems with
  | [] => rfl
  | [a] => rfl
  | a :: b :: rest =>
    simp [stringsJoin, String.intercalate, intercalate_go_eq_foldl]

theorem foldl_join_length (sep : String) (l : List String) (acc : String) :
    acc.length ≤ (l.foldl (fun b x => b ++ sep ++ x) acc).length := by
  induction l generalizing acc with
  | nil => simp
  | cons a as ih =>
    refine le_trans ?_ (ih (acc ++ sep ++ a))
    simp [String.length_append]
    omega

theorem stringsJoin_ne_empty (a : String) (rest : List String) (sep : String)
    (h : 0 < a.length) : stringsJoin (a :: rest) sep ≠ "" := by
  intro hj
  have hlen : a.length ≤ (stringsJoin (a :: rest) sep).length := by
    cases rest with
    | nil => simp [stringsJoin]
    | cons b bs => exact foldl_join_length sep (b :: bs) a
  rw [hj] at hlen
  simp at hlen
  omega

theorem SprintfQ_length_pos (L : Stdlib) (s : String) : 0 < (SprintfQ L s).length := by
  simp [SprintfQ, String.length]

theorem TomlStringLoop_eq (L : Stdlib) (tags : List Tag) (names : List String) :
    TomlStringLoop L tags names = names ++
      (tags.filter (fun t => t.Scheme = "http://www.blogger.com/atom/ns#")).map
        (fun t => SprintfQ L t.Name) := by
  induction tags generalizing names with
  | nil => simp [TomlStringLoop]
  | cons t ts ih =>
    by_cases h : t.Scheme = "http://www.blogger.com/atom/ns#"
    · rw [TomlStringLoop, if_pos h, ih]
      simp [List.filter_cons, h]
    · rw [TomlStringLoop, if_neg h, ih]
      simp [List.filter_cons, h]

/-! ## Lemmas on the driver loop -/

theorem fsHas_fsWrite_self (fs : FS) (path contents : String) :
    fsHas (fsWrite fs path contents) path = true := by
  by_cases h : fsHas fs path = true
  · rw [fsWrite, if_pos h]
    simp only [fsHas, List.any_eq_true] at h ⊢
    obtain ⟨f, hf, hp⟩ := h
    exact ⟨(path, contents), List.mem_map.mpr ⟨f, hf, by simp [hp]⟩, by simp⟩
  · rw [fsWrite, if_neg h]
    simp [fsHas]

theorem fsHas_fsWrite_of_fsHas (fs : FS) (path contents q : String)
    (hq : fsHas fs q = true) : fsHas (fsWrite fs path contents) q = true := by
  by_cases h : fsHas fs path = true
  · rw [fsWrite, if_pos h]
    simp only [fsHas, List.any_eq_true] at hq ⊢
    obtain ⟨f, hf, hp⟩ := hq
    by_cases hfp : (f.1 == path) = true
    · refine ⟨(path, contents), List.mem_map.mpr ⟨f, hf, by simp [hfp]⟩, ?_⟩
      have h1 : f.1 = path := by simpa using hfp
      have h2 : f.1 = q := by simpa using hp
      simp [← h1, h2]
    · exact ⟨f, List.mem_map.mpr ⟨f, hf, by simp [hfp]⟩, hp⟩
  · rw [fsWrite, if_neg h]
    simp only [fsHas, List.any_append, Bool.or_eq_true] at hq ⊢
    exact Or.inl hq

theorem setExtra_Title (extra : Option String) (entry : Entry) :
    (setExtra extra entry).Title = entry.Title := by
  cases extra <;> rfl

theorem setExtra_Content (extra : Option String) (entry : Entry) :
    (setExtra extra entry).Content = entry.Content := by
  cases extra <;> rfl

theorem setExtra_Draft (extra : Option String) (entry : Entry) :
    (setExtra extra entry).Draft = entry.Draft := by
  cases extra <;> rfl

/-- An iteration on an entry that is not a post. -/
theorem loopBody_not_post (L : Stdlib) (AskGroq : String → Except String String)
    (extra : Option String) (dir : String) (st : State) (entry : Entry)
    (hp : isPost entry.Tags = false) :
    loopBody L AskGroq extra dir st entry = .ok st := by
  simp [loopBody, hp]

/-- An iteration on a post whose target file is present. -/
theorem loopBody_present (L : Stdlib) (AskGroq : String → Except String String)
    (extra : Option String) (dir : String) (st : State) (entry : Entry)
    (hp : isPost entry.Tags = true)
    (hex : fsHas st.fs (L.filepathJoin dir (makePath L entry.Title ++ ".md")) = true) :
    loopBody L AskGroq extra dir st entry =
      .ok { st with count := st.count + 1, skipped := st.skipped ++ [setExtra extra entry] } := by
  simp [loopBody, hp, fileExist, setExtra_Title, hex]

/-- An iteration on a post whose target file is absent, when the rewrite fails. -/
theorem loopBody_rewrite_error (L : Stdlib) (AskGroq : String → Except String String)
    (extra : Option String) (dir : String) (st : State) (entry : Entry) (err : String)
    (hp : isPost entry.Tags = true)
    (hex : fsHas st.fs (L.filepathJoin dir (makePath L entry.Title ++ ".md")) = false)
    (hask : AskGroq (prompt ++ "\n" ++ entry.Content) = .error err) :
    loopBody L AskGroq extra dir st entry = .fatal ("Failed Asking Groq: " ++ err)
      { st with asked := st.asked ++ [prompt ++ "\n" ++ entry.Content] } := by
  simp [loopBody, hp, fileExist, setExtra_Title, setExtra_Content, hex, hask]

/-- An iteration on a post whose target file is absent, when the rewrite succeeds. -/
theorem loopBody_written (L : Stdlib) (AskGroq : String → Except String String)
    (extra : Option String) (dir : String) (st : State) (entry : Entry) (content : String)
    (hp : isPost entry.Tags = true)
    (hex : fsHas st.fs (L.filepathJoin dir (makePath L entry.Title ++ ".md")) = false)
    (hask : AskGroq (prompt ++ "\n" ++ entry.Content) = .ok content) :
    loopBody L AskGroq extra dir st entry = .ok
      { fs := fsWrite st.fs (L.filepathJoin dir (makePath L entry.Title ++ ".md"))
          (render L { setExtra extra entry with Content := content })
        count := if entry.Draft then st.count else st.count + 1
        drafts := if entry.Draft then st.drafts + 1 else st.drafts
        asked := st.asked ++ [prompt ++ "\n" ++ entry.Content]
        wrote := st.wrote ++ [{ setExtra extra entry with Content := content }]
        skipped := st.skipped } := by
  cases hd : entry.Draft <;>
    simp [loopBody, hp, fileExist, setExtra_Title, setExtra_Content, setExtra_Draft, hex, hask,
      writeEntry, hd]

/-- An iteration that does not end the process keeps every file that was present,
and leaves the target file of an eligible entry present. -/
theorem loopBody_ok_fsHas (L : Stdlib) (AskGroq : String → Except String String)
    (extra : Option String) (dir : String) (st st1 : State) (entry : Entry)
    (h : loopBody L AskGroq extra dir st entry = .ok st1) :
    (∀ q, fsHas st.fs q = true → fsHas st1.fs q = true) ∧
    (isPost entry.Tags = true →
      fsHas st1.fs (L.filepathJoin dir (makePath L entry.Title ++ ".md")) = true) := by
  cases hp : isPost entry.Tags with
  | false =>
    rw [loopBody_not_post L AskGroq extra dir st entry hp] at h
    cases h
    exact ⟨fun q hq => hq, fun h => absurd h (by simp)⟩
  | true =>
    cases hex : fsHas st.fs (L.filepathJoin dir (makePath L entry.Title ++ ".md")) with
    | true =>
      rw [loopBody_present L AskGroq extra dir st entry hp hex] at h
      cases h
      exact ⟨fun q hq => hq, fun _ => hex⟩
    | false =>
      cases hask : AskGroq (prompt ++ "\n" ++ entry.Content) with
      | error err =>
        rw [loopBody_rewrite_error L AskGroq extra dir st entry err hp hex hask] at h
        cases h
      | ok content =>
        rw [loopBody_written L AskGroq extra dir st entry content hp hex hask] at h
        cases h
        exact ⟨fun q hq => fsHas_fsWrite_of_fsHas _ _ _ _ hq,
          fun _ => fsHas_fsWrite_self _ _ _⟩

/-- A run of the loop that completes keeps every file that was present, and leaves
the target file of every eligible entry present. -/
theorem mainLoop_ok_fsHas (L : Stdlib) (AskGroq : String → Except String String)
    (extra : Option String) (dir : String) (entries : List Entry) (st st1 : State)
    (h : mainLoop L AskGroq extra dir entries st = .ok st1) :
    (∀ q, fsHas st.fs q = true → fsHas st1.fs q = true) ∧
    (∀ e ∈ entries, isPost e.Tags = true →
      fsHas st1.fs (L.filepathJoin dir (makePath L e.Title ++ ".md")) = true) := by
  induction entries generalizing st with
  | nil =>
    simp only [mainLoop, Outcome.ok.injEq] at h
    subst h
    exact ⟨fun q hq => hq, fun e he => absurd he (List.not_mem_nil e)⟩
  | cons entry entries ih =>
    rw [mainLoop] at h
    cases hb : loopBody L AskGroq extra dir st entry with
    | fatal msg st2 => rw [hb] at h; cases h
    | ok st2 =>
      rw [hb] at h
      obtain ⟨hkeep, hall⟩ := ih st2 h
      obtain ⟨hkeep1, hself⟩ := loopBody_ok_fsHas L AskGroq extra dir st st2 entry hb
      refine ⟨fun q hq => hkeep q (hkeep1 q hq), ?_⟩
      intro e he hp
      rcases List.mem_cons.mp he with rfl | he
      · exact hkeep _ (hself hp)
      · exact hall e he hp

/-- A run of the loop on a directory that holds the target file of every eligible
entry completes without a rewrite call or a write: only `count` and the record of
skipped entries grow. -/
theorem mainLoop_all_present (L : Stdlib) (AskGroq : String → Except String String)
    (extra : Option String) (dir : String) (entries : List Entry) (st : State)
    (hall : ∀ e ∈ entries, isPost e.Tags = true →
      fsHas st.fs (L.filepathJoin dir (makePath L e.Title ++ ".md")) = true) :
    ∃ st1, mainLoop L AskGroq extra dir entries st = .ok st1 ∧ st1.fs = st.fs ∧
      st1.asked = st.asked ∧ st1.wrote = st.wrote ∧ st1.drafts = st.drafts := by
  induction entries generalizing st with
  | nil => exact ⟨st, rfl, rfl, rfl, rfl, rfl⟩
  | cons entry entries ih =>
    rw [mainLoop]
    cases hp : isPost entry.Tags with
    | false =>
      rw [loopBody_not_post L AskGroq extra dir st entry hp]
      exact ih st (fun e he => hall e (List.mem_cons_of_mem _ he))
    | true =>
      rw [loopBody_present L AskGroq extra dir st entry hp (hall entry (List.mem_cons_self _ _) hp)]
      exact ih _ (fun e he => hall e (List.mem_cons_of_mem _ he))

/-- A run of the loop with a rewrite function that never fails completes. -/
theorem mainLoop_completes (L : Stdlib) (AskGroq : String → Except String String)
    (extra : Option String) (dir : String) (entries : List Entry) (st : State)
    (hask : ∀ p, ∃ c, AskGroq p = .ok c) :
    ∃ st1, mainLoop L AskGroq extra dir entries st = .ok st1 := by
  induction entries generalizing st with
  | nil => exact ⟨st, rfl⟩
  | cons entry entries ih =>
    rw [mainLoop]
    cases hp : isPost entry.Tags with
    | false =>
      rw [loopBody_not_post L AskGroq extra dir st entry hp]
      exact ih st
    | true =>
      cases hex : fsHas st.fs (L.filepathJoin dir (makePath L entry.Title ++ ".md")) with
      | true =>
        rw [loopBody_present L AskGroq extra dir st entry hp hex]
        exact ih _
      | false =>
        obtain ⟨c, hc⟩ := hask (prompt ++ "\n" ++ entry.Content)
        rw [loopBody_written L AskGroq extra dir st entry c hp hex hc]
        exact ih _

theorem loopBody_Counted (L : Stdlib) (AskGroq : String → Except String String)
    (extra : Option String) (dir : String) (st st1 : State) (entry : Entry)
    (hc : Counted st) (h : loopBody L AskGroq extra dir st entry = .ok st1) : Counted st1 := by
  obtain ⟨hc1, hc2⟩ := hc
  cases hp : isPost entry.Tags with
  | false =>
    rw [loopBody_not_post L AskGroq extra dir st entry hp] at h
    cases h
    exact ⟨hc1, hc2⟩
  | true =>
    cases hex : fsHas st.fs (L.filepathJoin dir (makePath L entry.Title ++ ".md")) with
    | true =>
      rw [loopBody_present L AskGroq extra dir st entry hp hex] at h
      cases h
      refine ⟨?_, hc2⟩
      simp only [List.length_append, List.length_singleton]
      omega
    | false =>
      cases hask : AskGroq (prompt ++ "\n" ++ entry.Content) with
      | error err =>
        rw [loopBody_rewrite_error L AskGroq extra dir st entry err hp hex hask] at h
        cases h
      | ok content =>
        rw [loopBody_written L AskGroq extra dir st entry content hp hex hask] at h
        cases h
        cases hd : entry.Draft
        · simp [Counted, List.filter_append, List.filter_cons, setExtra_Draft, hd, hc1, hc2]
          omega
        · simp [Counted, List.filter_append, List.filter_cons, setExtra_Draft, hd, hc1, hc2]

theorem mainLoop_Counted (L : Stdlib) (AskGroq : String → Except String String)
    (extra : Option String) (dir : String) (entries : List Entry) (st st1 : State)
    (hc : Counted st) (h : mainLoop L AskGroq extra dir entries st = .ok st1) : Counted st1 := by
  induction entries generalizing st with
  | nil =>
    simp only [mainLoop, Outcome.ok.injEq] at h
    subst h
    exact hc
  | cons entry entries ih =>
    rw [mainLoop] at h
    cases hb : loopBody L AskGroq extra dir st entry with
    | fatal msg st2 => rw [hb] at h; cases h
    | ok st2 =>
      rw [hb] at h
      exact ih st2 (loopBody_Counted L AskGroq extra dir st st2 entry hc hb) h

/-! ## Properties of the pipeline -/

set_option maxRecDepth 100000

/-- C1 (counterexample): on the title `a  b`, with two spaces, `makePath` yields `a--b`
while the reference pipeline, which folds a run of white space into one hyphen,
yields `a-b`. -/
theorem C1_makePath_ne_spec :
    makePath asciiStdlib "a  b" = "a--b" ∧ makePathSpec asciiStdlib "a  b" = "a-b" ∧
    makePath asciiStdlib "a  b" ≠ makePathSpec asciiStdlib "a  b" := by
  decide

/-- C1 (amended): for every title, `makePath` trims surrounding white space, replaces
each single U+0020 space that is left with one hyphen (a run of `n` spaces gives `n`
hyphens, other white space is not replaced), lowercases every rune, and then deletes
every rune that is not a letter, a digit, `'.'`, `'_'` or `'-'`. -/
theorem C1_makePath_pipeline (L : Stdlib) (s : String) :
    makePath L s = String.mk (List.filter
      (fun r => unicodeIsLetter L r || unicodeIsDigit L r || r = '.' || r = '_' || r = '-')
      (List.map (unicodeToLower L)
        (List.map (fun r => if r = ' ' then '-' else r)
          (List.rdropWhile (unicodeIsSpace L)
            (List.dropWhile (unicodeIsSpace L) s.data))))) := by
  simp only [makePath, unicodeSanitize, unicodeSanitizeLoop_eq, ToLower_eq_map, Replace_eq_map,
    TrimSpace, TrimRightFunc_eq_rdropWhile, TrimLeftFunc_eq_dropWhile, List.nil_append]

/-- C2 (counterexample): `makePath` does not map `  C++ & Go!  ` to `c-go`. -/
theorem C2_makePath_cpp_ne : makePath asciiStdlib "  C++ & Go!  " ≠ "c-go" := by
  decide

/-- C2 (amended): `makePath("Social Media")` is `social-media`, and
`makePath("  C++ & Go!  ")` is `c--go`, with one hyphen for each of the two interior
spaces. -/
theorem C2_makePath_examples (L : Stdlib) :
    makePath L "Social Media" = "social-media" ∧ makePath L "  C++ & Go!  " = "c--go" :=
  ⟨rfl, rfl⟩

/-- C3: the post filter retains an entry exactly when one of its tags has the post
kind as name and the kind scheme as scheme; an entry whose tags all have the label
scheme is discarded; and an iteration on a discarded entry leaves the state as it
was: no rewrite call, no file written, no counter changed. -/
theorem C3_post_filter (L : Stdlib) (AskGroq : String → Except String String)
    (extra : Option String) (dir : String) (st : State) (entry : Entry) :
    (isPost entry.Tags = true ↔ ∃ t ∈ entry.Tags,
      t.Name = "http://schemas.google.com/blogger/2008/kind#post" ∧
      t.Scheme = "http://schemas.google.com/g/2005#kind") ∧
    ((∀ t ∈ entry.Tags, t.Scheme = "http://www.blogger.com/atom/ns#") →
      isPost entry.Tags = false) ∧
    (isPost entry.Tags = false → loopBody L AskGroq extra dir st entry = .ok st) := by
  refine ⟨isPost_iff entry.Tags, ?_, ?_⟩
  · intro h
    rw [← Bool.not_eq_true, isPost_iff]
    rintro ⟨t, ht, -, hs⟩
    have h2 := h t ht
    rw [hs] at h2
    exact absurd h2 (by decide)
  · intro h
    simp [loopBody, h]

/-- C3 (witness): an entry whose only tag is the label `golang`. -/
theorem C3_post_filter_witness :
    isPost [⟨"golang", "http://www.blogger.com/atom/ns#"⟩] = false ∧
    loopBody asciiStdlib (fun _ => .error "down") (some "x") "out" (State.start [])
      ⟨"id", ⟨2020, 1, 2, 3, 4, 5⟩, ⟨2020, 1, 2, 3, 4, 5⟩, false, "T", "c",
        [⟨"golang", "http://www.blogger.com/atom/ns#"⟩], ⟨"a", "u"⟩, ""⟩ =
      .ok (State.start []) :=
  have h := C3_post_filter asciiStdlib (fun _ => .error "down") (some "x") "out"
    (State.start [])
    ⟨"id", ⟨2020, 1, 2, 3, 4, 5⟩, ⟨2020, 1, 2, 3, 4, 5⟩, false, "T", "c",
      [⟨"golang", "http://www.blogger.com/atom/ns#"⟩], ⟨"a", "u"⟩, ""⟩
  ⟨h.2.1 (by decide), h.2.2 (h.2.1 (by decide))⟩

/-- C4: decoding the draft text `v` succeeds with `true` exactly when `v` is `yes`,
succeeds with `false` exactly when `v` is `no`, and for every other `v` returns the
error `Unknown value for draft boolean: ` followed by `v`, leaving the receiver as it
was. -/
theorem C4_draft_decoding (d : Bool) (v : String) :
    (Draft.UnmarshalXML d v = (true, none) ↔ v = "yes") ∧
    (Draft.UnmarshalXML d v = (false, none) ↔ v = "no") ∧
    (v ≠ "yes" → v ≠ "no" →
      Draft.UnmarshalXML d v = (d, some ("Unknown value for draft boolean: " ++ v))) := by
  refine ⟨?_, ?_, ?_⟩
  · by_cases h1 : v = "yes"
    · simp [Draft.UnmarshalXML, h1]
    · by_cases h2 : v = "no"
      · subst h2
        simp [Draft.UnmarshalXML]
      · simp [Draft.UnmarshalXML, h1, h2]
  · by_cases h1 : v = "yes"
    · subst h1
      simp [Draft.UnmarshalXML]
    · by_cases h2 : v = "no"
      · simp [Draft.UnmarshalXML, h2]
      · simp [Draft.UnmarshalXML, h1, h2]
  · intro h1 h2
    simp [Draft.UnmarshalXML, h1, h2]

/-- C4 (witness): the text `maybe` is refused with an error that names it. -/
theorem C4_draft_decoding_witness :
    Draft.UnmarshalXML false "maybe" =
      (false, some ("Unknown value for draft boolean: " ++ "maybe")) :=
  (C4_draft_decoding false "maybe").2.2 (by decide) (by decide)

/-- C5: the rendered document is the opening lines up to `updated`, then a tags part,
then a draft part, then the closing `+++` line, a blank line and the content. The tags
part is a line `tags = [...]` listing the quoted names of the label-scheme tags in
their order, separated by `, `, when some tag has the label scheme, and is empty
otherwise; the draft part is the line `draft = true` when the entry is a draft and is
empty otherwise. -/
theorem C5_front_matter (L : Stdlib) (e : Entry) :
    ∃ tagsPart draftPart : String,
      render L e = "+++\ntitle = '" ++ e.Title ++ "'\ndate = '" ++ e.Published.String ++
        "'\nupdated = '" ++ e.Updated.String ++ "'" ++ tagsPart ++ draftPart ++
        "\n+++\n\n" ++ e.Content ++ "\n" ∧
      ((∃ t ∈ e.Tags, t.Scheme = "http://www.blogger.com/atom/ns#") →
        tagsPart = "\ntags = [" ++ String.intercalate ", "
          ((e.Tags.filter (fun t => t.Scheme = "http://www.blogger.com/atom/ns#")).map
            (fun t => SprintfQ L t.Name)) ++ "]") ∧
      ((¬ ∃ t ∈ e.Tags, t.Scheme = "http://www.blogger.com/atom/ns#") → tagsPart = "") ∧
      (e.Draft = true → draftPart = "\ndraft = true") ∧
      (e.Draft = false → draftPart = "") := by
  refine ⟨if Tags.TomlString L e.Tags ≠ "" then "\ntags = [" ++ Tags.TomlString L e.Tags ++ "]"
    else "", if e.Draft then "\ndraft = true" else "", rfl, ?_, ?_, ?_, ?_⟩
  · rintro ⟨t, ht, hs⟩
    have hmem : t ∈ e.Tags.filter (fun t => t.Scheme = "http://www.blogger.com/atom/ns#") := by
      simp [List.mem_filter, ht, hs]
    have hne : Tags.TomlString L e.Tags ≠ "" := by
      rw [Tags.TomlString, TomlStringLoop_eq, List.nil_append]
      cases hf : e.Tags.filter (fun t => t.Scheme = "http://www.blogger.com/atom/ns#") with
      | nil => rw [hf] at hmem; simp at hmem
      | cons a as =>
        rw [List.map_cons]
        exact stringsJoin_ne_empty _ _ _ (SprintfQ_length_pos L a.Name)
    rw [if_pos hne, Tags.TomlString, TomlStringLoop_eq, List.nil_append,
      stringsJoin_eq_intercalate]
  · intro hno
    have hf : e.Tags.filter (fun t => t.Scheme = "http://www.blogger.com/atom/ns#") = [] := by
      rw [List.filter_eq_nil_iff]
      intro t ht hs
      exact hno ⟨t, ht, by simpa using hs⟩
    have he : Tags.TomlString L e.Tags = "" := by
      rw [Tags.TomlString, TomlStringLoop_eq, hf]
      rfl
    simp [he]
  · intro hd
    simp [hd]
  · intro hd
    simp [hd]

/-- C5 (witness): a draft entry with the kind tag and the labels `go` and `web`. -/
theorem C5_front_matter_witness :
    render asciiStdlib ⟨"id", ⟨2020, 1, 2, 3, 4, 5⟩, ⟨2021, 11, 12, 13, 14, 15⟩, true, "T", "c",
      [⟨"go", "http://www.blogger.com/atom/ns#"⟩,
       ⟨"http://schemas.google.com/blogger/2008/kind#post",
        "http://schemas.google.com/g/2005#kind"⟩,
       ⟨"web", "http://www.blogger.com/atom/ns#"⟩], ⟨"a", "u"⟩, ""⟩ =
    "+++\ntitle = 'T'\ndate = '2020-01-02T03:04:05Z'\nupdated = '2021-11-12T13:14:15Z'" ++
      "\ntags = [\"go\", \"web\"]" ++ "\ndraft = true" ++ "\n+++\n\nc\n" := by
  obtain ⟨tagsPart, draftPart, hr, ht, -, hd, -⟩ := C5_front_matter asciiStdlib
    ⟨"id", ⟨2020, 1, 2, 3, 4, 5⟩, ⟨2021, 11, 12, 13, 14, 15⟩, true, "T", "c",
      [⟨"go", "http://www.blogger.com/atom/ns#"⟩,
       ⟨"http://schemas.google.com/blogger/2008/kind#post",
        "http://schemas.google.com/g/2005#kind"⟩,
       ⟨"web", "http://www.blogger.com/atom/ns#"⟩], ⟨"a", "u"⟩, ""⟩
  rw [hr, ht ⟨⟨"go", "http://www.blogger.com/atom/ns#"⟩, by simp, rfl⟩, hd rfl]
  decide

/-- C6 (counterexample): in the end-to-end scenario the file written has the title
line `title = 'Hello World'`, in single quotes, and no line `title = "Hello World"`. -/
theorem C6_title_not_double_quoted :
    ∃ st doc, mainLoop asciiStdlib (fun _ => .ok "<b>hi</b>") none "out"
        [helloWorld "id" ⟨2020, 1, 2, 3, 4, 5⟩ ⟨"a", "u"⟩] (State.start []) = .ok st ∧
      st.fs = [("out/hello-world.md", doc)] ∧
      "title = \"Hello World\"" ∉ lines doc ∧ "title = 'Hello World'" ∈ lines doc := by
  refine ⟨_, _, rfl, rfl, ?_, ?_⟩ <;> decide

/-- C6 (amended): for the one-entry export of the scenario, an empty output directory
and a rewrite function that answers the prompt of this entry with the original
content, the loop completes, the output directory holds exactly one file, at
`filepath.Join(dir, "hello-world.md")`, whose text is the front matter with the lines
`title = 'Hello World'` (single quotes), `date = '2020-01-02T03:04:05Z'`, the
`updated` line and `tags = ["go"]`, no draft line, then a blank line and
`<b>hi</b>`; the published counter is 1 and the draft counter is 0. -/
theorem C6_end_to_end (L : Stdlib) (AskGroq : String → Except String String)
    (extra : Option String) (dir id : String) (updated : Date) (author : Author)
    (hask : AskGroq (prompt ++ "\n" ++ "<b>hi</b>") = .ok "<b>hi</b>") :
    ∃ st, mainLoop L AskGroq extra dir [helloWorld id updated author] (State.start []) = .ok st ∧
      st.fs = [(L.filepathJoin dir "hello-world.md",
        "+++\ntitle = 'Hello World'\ndate = '2020-01-02T03:04:05Z'\nupdated = '" ++
          updated.String ++ "'\ntags = [\"go\"]\n+++\n\n<b>hi</b>\n")] ∧
      st.count = 1 ∧ st.drafts = 0 ∧ st.asked = [prompt ++ "\n" ++ "<b>hi</b>"] := by
  have hr : render L { setExtra extra (helloWorld id updated author) with
      Content := "<b>hi</b>" } =
      "+++\ntitle = 'Hello World'\ndate = '2020-01-02T03:04:05Z'\nupdated = '" ++
        updated.String ++ "'\ntags = [\"go\"]\n+++\n\n<b>hi</b>\n" := by
    have htoml : Tags.TomlString L (helloWorld id updated author).Tags = "\"go\"" := rfl
    have hne : "\"go\"" ≠ "" := by decide
    cases extra <;>
    · simp only [render, helloWorld, setExtra] at htoml ⊢
      rw [htoml, if_pos hne]
      generalize updated.String = U
      apply String.ext
      simp only [String.data_append, List.append_assoc]
      rfl
  have hstep : mainLoop L AskGroq extra dir [helloWorld id updated author] (State.start []) =
      .ok
      { fs := [(L.filepathJoin dir "hello-world.md",
          render L { setExtra extra (helloWorld id updated author) with Content := "<b>hi</b>" })]
        count := 1
        drafts := 0
        asked := [prompt ++ "\n" ++ "<b>hi</b>"]
        wrote := [{ setExtra extra (helloWorld id updated author) with Content := "<b>hi</b>" }]
        skipped := [] } := by
    rw [mainLoop, loopBody_written L AskGroq extra dir (State.start [])
      (helloWorld id updated author) "<b>hi</b>" rfl rfl hask]
    rfl
  refine ⟨_, hstep, ?_, rfl, rfl, rfl⟩
  simp only [hr]

/-- C6 (witness): the scenario with a rewrite stub that always answers `<b>hi</b>`. -/
theorem C6_end_to_end_witness :
    ∃ st, mainLoop asciiStdlib (fun _ => .ok "<b>hi</b>") none "out"
        [helloWorld "id" ⟨2020, 1, 2, 3, 4, 5⟩ ⟨"a", "u"⟩] (State.start []) = .ok st ∧
      st.fs = [(asciiStdlib.filepathJoin "out" "hello-world.md",
        "+++\ntitle = 'Hello World'\ndate = '2020-01-02T03:04:05Z'\nupdated = '" ++
          (Date.mk 2020 1 2 3 4 5).String ++ "'\ntags = [\"go\"]\n+++\n\n<b>hi</b>\n")] ∧
      st.count = 1 ∧ st.drafts = 0 ∧ st.asked = [prompt ++ "\n" ++ "<b>hi</b>"] :=
  C6_end_to_end asciiStdlib (fun _ => .ok "<b>hi</b>") none "out" "id" ⟨2020, 1, 2, 3, 4, 5⟩
    ⟨"a", "u"⟩ rfl

/-- C7 (the code at the failing input): a run with the extra metadata
`author = 'me'` stores the string in the `Extra` field of the entry it writes, and the
document written does not contain it. -/
theorem C7_extra_not_rendered :
    ∃ st doc, mainLoop asciiStdlib (fun _ => .ok "<b>hi</b>") (some "author = 'me'") "out"
        [helloWorld "id" ⟨2020, 1, 2, 3, 4, 5⟩ ⟨"a", "u"⟩] (State.start []) = .ok st ∧
      st.wrote.map Entry.Extra = ["author = 'me'"] ∧
      st.fs = [("out/hello-world.md", doc)] ∧
      doc = "+++\ntitle = 'Hello World'\ndate = '2020-01-02T03:04:05Z'\n" ++
        "updated = '2020-01-02T03:04:05Z'\ntags = [\"go\"]\n+++\n\n<b>hi</b>\n" ∧
      ¬ ("author = 'me'".data <:+: doc.data) := by
  refine ⟨_, _, rfl, rfl, rfl, ?_, ?_⟩ <;> decide

/-- C8: for every export, every output directory state and every rewrite function
that never fails, the driver loop completes, and a second run of the loop on the
directory state left by the first completes with zero rewrite calls and no write,
leaving the files and their contents exactly as the first run left them. Entries
that share a title are covered: nothing is assumed of the titles. -/
theorem C8_second_run_idempotent (L : Stdlib) (AskGroq : String → Except String String)
    (extra : Option String) (dir : String) (entries : List Entry) (fs : FS)
    (hask : ∀ p, ∃ c, AskGroq p = .ok c) :
    ∃ st1 st2, mainLoop L AskGroq extra dir entries (State.start fs) = .ok st1 ∧
      mainLoop L AskGroq extra dir entries (State.start st1.fs) = .ok st2 ∧
      st2.asked = [] ∧ st2.wrote = [] ∧ st2.fs = st1.fs := by
  obtain ⟨st1, h1⟩ := mainLoop_completes L AskGroq extra dir entries (State.start fs) hask
  obtain ⟨-, hall⟩ := mainLoop_ok_fsHas L AskGroq extra dir entries (State.start fs) st1 h1
  obtain ⟨st2, h2, hfs, hasked, hwrote, -⟩ :=
    mainLoop_all_present L AskGroq extra dir entries (State.start st1.fs) hall
  exact ⟨st1, st2, h1, h2, hasked, hwrote, hfs⟩

/-- C8 (witness): an export with two eligible entries of the same title, run on an
empty directory with a rewrite stub. -/
theorem C8_second_run_idempotent_witness :
    ∃ st1 st2, mainLoop asciiStdlib (fun _ => .ok "<b>hi</b>") none "out"
        [helloWorld "1" ⟨2020, 1, 2, 3, 4, 5⟩ ⟨"a", "u"⟩,
         helloWorld "2" ⟨2021, 1, 2, 3, 4, 5⟩ ⟨"a", "u"⟩] (State.start []) = .ok st1 ∧
      mainLoop asciiStdlib (fun _ => .ok "<b>hi</b>") none "out"
        [helloWorld "1" ⟨2020, 1, 2, 3, 4, 5⟩ ⟨"a", "u"⟩,
         helloWorld "2" ⟨2021, 1, 2, 3, 4, 5⟩ ⟨"a", "u"⟩] (State.start st1.fs) = .ok st2 ∧
      st2.asked = [] ∧ st2.wrote = [] ∧ st2.fs = st1.fs :=
  C8_second_run_idempotent asciiStdlib (fun _ => .ok "<b>hi</b>") none "out"
    [helloWorld "1" ⟨2020, 1, 2, 3, 4, 5⟩ ⟨"a", "u"⟩,
     helloWorld "2" ⟨2021, 1, 2, 3, 4, 5⟩ ⟨"a", "u"⟩] [] (fun _ => ⟨"<b>hi</b>", rfl⟩)

/-- C9 (counterexample): on a directory that already holds `out/hello-world.md`, the
run of the scenario export writes nothing, issues no rewrite call, and ends with the
published counter at 1. -/
theorem C9_skip_increments_count :
    ∃ st, mainLoop asciiStdlib (fun _ => .ok "<b>hi</b>") none "out"
        [helloWorld "id" ⟨2020, 1, 2, 3, 4, 5⟩ ⟨"a", "u"⟩]
        (State.start [("out/hello-world.md", "old")]) = .ok st ∧
      st.wrote = [] ∧ st.asked = [] ∧ st.fs = [("out/hello-world.md", "old")] ∧
      st.count = 1 ∧ st.drafts = 0 := by
  refine ⟨_, rfl, ?_, ?_, ?_, ?_, ?_⟩ <;> decide

/-- C9 (amended): for every run of the loop that completes, the published counter is
the number of entries written in this run that are not drafts plus the number of
eligible entries skipped because their target file was present, and the draft counter
is the number of entries written in this run that are drafts. -/
theorem C9_counters (L : Stdlib) (AskGroq : String → Except String String)
    (extra : Option String) (dir : String) (entries : List Entry) (fs : FS) (st : State)
    (h : mainLoop L AskGroq extra dir entries (State.start fs) = .ok st) :
    st.count = (st.wrote.filter (fun e => !e.Draft)).length + st.skipped.length ∧
    st.drafts = (st.wrote.filter (fun e => e.Draft)).length :=
  mainLoop_Counted L AskGroq extra dir entries (State.start fs) st ⟨rfl, rfl⟩ h

/-- C9 (witness): the run of the scenario export on a directory that holds the
target file. -/
theorem C9_counters_witness :
    ∃ st, mainLoop asciiStdlib (fun _ => .ok "<b>hi</b>") none "out"
        [helloWorld "id" ⟨2020, 1, 2, 3, 4, 5⟩ ⟨"a", "u"⟩]
        (State.start [("out/hello-world.md", "old")]) = .ok st ∧
      st.count = (st.wrote.filter (fun e => !e.Draft)).length + st.skipped.length ∧
      st.drafts = (st.wrote.filter (fun e => e.Draft)).length :=
  ⟨_, rfl, C9_counters asciiStdlib (fun _ => .ok "<b>hi</b>") none "out"
    [helloWorld "id" ⟨2020, 1, 2, 3, 4, 5⟩ ⟨"a", "u"⟩] [("out/hello-world.md", "old")] _ rfl⟩

/-- C10 (the code at the failing input): when `os.Stat` reports that the output
directory does not exist and `os.MkdirAll` creates it, the directory check goes on to
call `IsDir` on the nil file info of the failed `os.Stat`. -/
theorem C10_absent_dir_nil_dereference :
    dirCheck (.error OsError.ErrNotExist) none = DirOutcome.nilDereference := by
  rfl

end Blogimport
